import Mathlib

/-!
Seqnum reconciliation in `GcsHandle` (src/ray/gcs/new_gcs_iface.h).

A shallow embedding of the two hiredis callbacks of `GcsHandle`,
`AckedSeqnumCallback` and `AssignedSeqnumCallback`, together with the two
bookkeeping sets `assigned_seqnums` and `acked_seqnums` they mutate.

* A `void *privdata` is an integer-sized value; `NULL` is `0`.
* A `redisReply` keeps the fields the callbacks read: `type`, `integer`,
  `str` (a nullable `char *`) and the `element` array.
* A callback returns the new handle and the list of `privdata` values it
  passed to `RedisCallbackManager::instance().get(privdata)(...)`, in order;
  undefined behaviour and C++ exceptions are `Except.error`.
* The reply pointer handed to a callback is taken to be non-null.
-/

namespace GcsIface

/-- The value of a `void *privdata`: `Add` stores an `int done_callback_idx` in it. -/
abbrev Privdata := Int

/-- The null pointer, as a `privdata` value. -/
def NULL : Privdata := 0

/-- The ways a callback can leave its normal path. -/
inductive Fault where
  /-- Reading `reply->element[i]` with `i` not below `reply->elements`. -/
  | element_out_of_bounds
  /-- The exception `std::invalid_argument`, thrown by `std::stoi` when there is no digit. -/
  | invalid_argument
  /-- The exception `std::out_of_range`, thrown by `std::stoi` when the value fits no `int`. -/
  | out_of_range
  deriving DecidableEq, Repr

instance instDecidableEqExcept {ε α : Type} [DecidableEq ε] [DecidableEq α] :
    DecidableEq (Except ε α)
  | .ok a, .ok b => if h : a = b then isTrue (by rw [h]) else isFalse (by intro e; cases e; exact h rfl)
  | .error a, .error b =>
    if h : a = b then isTrue (by rw [h]) else isFalse (by intro e; cases e; exact h rfl)
  | .ok _, .error _ => isFalse (by intro e; cases e)
  | .error _, .ok _ => isFalse (by intro e; cases e)

/-- The hiredis reply object, with the fields read by the callbacks:
`type`, `integer`, `str` (`none` is a null `char *`) and the `element` array
(`elements` is its length). -/
inductive redisReply where
  | mk (type : Int) (integer : Int) (str : Option String) (element : List redisReply)

namespace redisReply

/-- The field `reply->type`. -/
def type : redisReply → Int
  | mk t _ _ _ => t

/-- The field `reply->integer`. -/
def integer : redisReply → Int
  | mk _ i _ _ => i

/-- The field `reply->str`. -/
def str : redisReply → Option String
  | mk _ _ s _ => s

/-- The field `reply->element`. -/
def element : redisReply → List redisReply
  | mk _ _ _ es => es

/-- The access `reply->element[i]`; reading past the array is a fault. -/
def elementAt (r : redisReply) (i : Nat) : Except Fault redisReply :=
  match r.element.get? i with
  | some e => .ok e
  | none => .error .element_out_of_bounds

end redisReply

/-- The hiredis reply type tags. -/
def REDIS_REPLY_STRING : Int := 1
def REDIS_REPLY_ARRAY : Int := 2
def REDIS_REPLY_INTEGER : Int := 3
def REDIS_REPLY_NIL : Int := 4
def REDIS_REPLY_STATUS : Int := 5
def REDIS_REPLY_ERROR : Int := 6

/-- The C `isspace` in the "C" locale. -/
def isspace (c : Char) : Bool :=
  c.toNat = 32 || (9 ≤ c.toNat && c.toNat ≤ 13)

/-- The C `isdigit`. -/
def isdigit (c : Char) : Bool :=
  48 ≤ c.toNat && c.toNat ≤ 57

/-- The value of a run of decimal digits, most significant first. -/
def digitsValue (ds : List Char) : Nat :=
  ds.foldl (fun acc c => 10 * acc + (c.toNat - 48)) 0

/-- The smallest and the largest `int`. -/
def INT_MIN : Int := -2147483648
def INT_MAX : Int := 2147483647

/-- The library function `std::stoi(str)` in base 10: leading white space is skipped, one
optional sign is read, then the longest run of decimal digits; characters
after the digits are ignored. No digit at all throws `std::invalid_argument`,
a value outside `int` throws `std::out_of_range`. -/
def stoi (str : String) : Except Fault Int :=
  let s := str.data.dropWhile isspace
  let signed : Bool × List Char :=
    match s with
    | c :: t => if c = '-' then (true, t) else if c = '+' then (false, t) else (false, s)
    | [] => (false, s)
  let ds := signed.2.takeWhile isdigit
  if ds.isEmpty then .error .invalid_argument
  else
    let v : Int := if signed.1 then -(digitsValue ds : Int) else (digitsValue ds : Int)
    if v < INT_MIN ∨ INT_MAX < v then .error .out_of_range else .ok v

/-- The client bookkeeping of `GcsHandle`: the two `std::unordered_set<int64_t>`. -/
structure GcsHandle where
  assigned_seqnums : Finset Int
  acked_seqnums : Finset Int
  deriving DecidableEq

/-- A freshly constructed handle: both sets empty. -/
def GcsHandle.init : GcsHandle := ⟨∅, ∅⟩

/-- What a callback leaves behind: the handle, and the `privdata` values whose
registered "done" callback it launched, in order. -/
abbrev Outcome := Except Fault (GcsHandle × List Privdata)

/-- The callback `GcsHandle::AckedSeqnumCallback(ack_context, r, privdata)`. -/
def AckedSeqnumCallback (h : GcsHandle) (reply : redisReply) (privdata : Privdata) : Outcome := do
  let _message_type ← reply.elementAt 0
  let payload ← reply.elementAt 2
  match payload.str with
  | none =>
    -- Subscribed.
    return (h, [])
  | some str =>
    let received_sn : Int ← stoi str
    if received_sn ∉ h.assigned_seqnums then
      return ({ h with acked_seqnums := insert received_sn h.acked_seqnums }, [])
    else
      -- Launch the user "done" callback.
      return ({ h with assigned_seqnums := h.assigned_seqnums.erase received_sn }, [privdata])

/-- The callback `GcsHandle::AssignedSeqnumCallback(write_context, r, privdata)`. -/
def AssignedSeqnumCallback (h : GcsHandle) (reply : redisReply) (privdata : Privdata) : Outcome :=
  let assigned_seqnum : Int := reply.integer
  if assigned_seqnum ∈ h.acked_seqnums then
    -- Launch the user "done" callback.
    .ok ({ h with acked_seqnums := h.acked_seqnums.erase assigned_seqnum }, [privdata])
  else
    .ok ({ h with assigned_seqnums := insert assigned_seqnum h.assigned_seqnums }, [])

/-- The privdata that `GcsHandle::Add(key, val, done_callback_idx)` hands to hiredis
together with `AssignedSeqnumCallback`. -/
def Add (done_callback_idx : Int) : Privdata := done_callback_idx

/-- The privdata that `GcsHandle::AttachToEventLoop` hands to hiredis together
with `AckedSeqnumCallback` when it subscribes: `/*privdata=*/NULL`. -/
def AttachToEventLoop.privdata : Privdata := NULL

/-- What hiredis delivers to the handle: the reply to a write issued by
`Add(key, val, done_callback_idx)`, or a frame of the ack subscription made
by `AttachToEventLoop`. -/
inductive Event where
  | write_reply (reply : redisReply) (done_callback_idx : Int)
  | ack_frame (reply : redisReply)

/-- Hiredis calls the callback registered for the event, with the privdata
registered with it. -/
def deliver (h : GcsHandle) : Event → Outcome
  | .write_reply reply done_callback_idx =>
    AssignedSeqnumCallback h reply (Add done_callback_idx)
  | .ack_frame reply => AckedSeqnumCallback h reply AttachToEventLoop.privdata

/-- The event loop: the events are delivered one after the other; the launched
callbacks accumulate, a fault stops the loop. -/
def run (h : GcsHandle) : List Event → Outcome
  | [] => .ok (h, [])
  | e :: es =>
    match deliver h e with
    | .error f => .error f
    | .ok (h1, fired1) =>
      match run h1 es with
      | .error f => .error f
      | .ok (h2, fired2) => .ok (h2, fired1 ++ fired2)

/-- The sequence number that `AckedSeqnumCallback` reads off a frame
(`std::stoi(reply->element[2]->str)`), when it gets that far: `none` for a
frame that is too short, has a null payload string, or makes `stoi` throw. -/
def receivedSn (reply : redisReply) : Option Int :=
  match reply.element with
  | _ :: _ :: payload :: _ =>
    match payload.str with
    | some str =>
      match stoi str with
      | .ok n => some n
      | .error _ => none
    | none => none
  | _ => none

/-- A hiredis string reply (bulk string). -/
def stringReply (s : String) : redisReply := .mk REDIS_REPLY_STRING 0 (some s) []

/-- A hiredis integer reply, as the store sends for a successful write. -/
def integerReply (n : Int) : redisReply := .mk REDIS_REPLY_INTEGER n none []

/-- A hiredis error reply: the message is in `str`, the other fields are
zero-initialised. -/
def errorReply (msg : String) : redisReply := .mk REDIS_REPLY_ERROR 0 (some msg) []

/-- The pub/sub data frame `["message", channel, payload]`. -/
def messageFrame (channel payload : String) : redisReply :=
  .mk REDIS_REPLY_ARRAY 0 none [stringReply "message", stringReply channel, stringReply payload]

/-- The pub/sub confirmation frame `["subscribe", channel, count]`. -/
def subscribeFrame (channel : String) (count : Int) : redisReply :=
  .mk REDIS_REPLY_ARRAY 0 none [stringReply "subscribe", stringReply channel, integerReply count]

/-- The sequence number an event assigns: the integer of a write reply. -/
def Event.assigned? : Event → Option Int
  | .write_reply reply _ => some reply.integer
  | .ack_frame _ => none

/-- The sequence number an event acknowledges: the one read off an ack frame. -/
def Event.acked? : Event → Option Int
  | .write_reply _ _ => none
  | .ack_frame reply => receivedSn reply

/-- The sequence numbers assigned by the events, in order of arrival. -/
def assignedSeqs (evs : List Event) : List Int := evs.filterMap Event.assigned?

/-- The sequence numbers acknowledged by the events, in order of arrival. -/
def ackedSeqs (evs : List Event) : List Int := evs.filterMap Event.acked?

/-- The event carries a sequence number: it is a write reply, or an ack frame
off which `AckedSeqnumCallback` reads one. -/
def Event.carriesSeq : Event → Prop
  | .write_reply _ _ => True
  | .ack_frame reply => ∃ seq, receivedSn reply = some seq

/-- The sequence number an event carries, when it carries one: the integer of
a write reply, or the number `AckedSeqnumCallback` reads off an ack frame. -/
def Event.seq? : Event → Option Int
  | .write_reply reply _ => some reply.integer
  | .ack_frame reply => receivedSn reply

/-- The decimal text of a sequence number, as the store publishes it. -/
def decimal (s : Int) : String := toString s

/-- The smallest and the largest `int64_t`. -/
def INT64_MIN : Int := -9223372036854775808
def INT64_MAX : Int := 9223372036854775807

/-! ## Lemmas on the callbacks -/

theorem AckedSeqnumCallback_data (h : GcsHandle) (reply : redisReply) (privdata : Privdata)
    (seq : Int) (hs : receivedSn reply = some seq) :
    AckedSeqnumCallback h reply privdata =
      if seq ∉ h.assigned_seqnums then
        .ok (⟨h.assigned_seqnums, insert seq h.acked_seqnums⟩, [])
      else .ok (⟨h.assigned_seqnums.erase seq, h.acked_seqnums⟩, [privdata]) := by
  obtain ⟨t, i, s, es⟩ := reply
  match es, hs with
  | e0 :: e1 :: payload :: rest, hs =>
    simp only [receivedSn, redisReply.element] at hs
    cases hp : payload.str with
    | none => simp [hp] at hs
    | some str =>
      rw [hp] at hs
      cases hst : stoi str with
      | error f => simp [hst] at hs
      | ok n =>
        simp only [hst, Option.some.injEq] at hs
        subst hs
        simp only [AckedSeqnumCallback, redisReply.elementAt, redisReply.element, List.get?,
          bind, Except.bind, hp, hst, pure, Except.pure]

theorem AssignedSeqnumCallback_eq (h : GcsHandle) (reply : redisReply) (privdata : Privdata) :
    AssignedSeqnumCallback h reply privdata =
      if reply.integer ∈ h.acked_seqnums then
        .ok (⟨h.assigned_seqnums, h.acked_seqnums.erase reply.integer⟩, [privdata])
      else .ok (⟨insert reply.integer h.assigned_seqnums, h.acked_seqnums⟩, []) := rfl

theorem AckedSeqnumCallback_subscribed (h : GcsHandle) (reply : redisReply)
    (privdata : Privdata) (e0 e1 payload : redisReply) (rest : List redisReply)
    (hel : reply.element = e0 :: e1 :: payload :: rest) (hp : payload.str = none) :
    AckedSeqnumCallback h reply privdata = .ok (h, []) := by
  simp only [AckedSeqnumCallback, redisReply.elementAt, hel, List.get?, bind, Except.bind, hp,
    pure, Except.pure]

theorem AckedSeqnumCallback_short (h : GcsHandle) (reply : redisReply) (privdata : Privdata)
    (hlen : reply.element.length < 3) :
    AckedSeqnumCallback h reply privdata = .error .element_out_of_bounds := by
  obtain ⟨t, i, s, es⟩ := reply
  match es, hlen with
  | [], _ => rfl
  | [_], _ => rfl
  | [_, _], _ => rfl
  | _ :: _ :: _ :: _, hlen =>
    simp only [redisReply.element, List.length_cons] at hlen
    omega

theorem AckedSeqnumCallback_unparsed (h : GcsHandle) (reply : redisReply)
    (privdata : Privdata) (e0 e1 payload : redisReply) (rest : List redisReply) (str : String)
    (f : Fault) (hel : reply.element = e0 :: e1 :: payload :: rest) (hp : payload.str = some str)
    (hst : stoi str = .error f) :
    AckedSeqnumCallback h reply privdata = .error f := by
  simp only [AckedSeqnumCallback, redisReply.elementAt, hel, List.get?, bind, Except.bind, hp,
    hst]

theorem deliver_ack_frame (h : GcsHandle) (reply : redisReply) (seq : Int)
    (hs : receivedSn reply = some seq) :
    deliver h (.ack_frame reply) =
      if seq ∉ h.assigned_seqnums then
        .ok (⟨h.assigned_seqnums, insert seq h.acked_seqnums⟩, [])
      else .ok (⟨h.assigned_seqnums.erase seq, h.acked_seqnums⟩, [AttachToEventLoop.privdata]) :=
  AckedSeqnumCallback_data h reply AttachToEventLoop.privdata seq hs

theorem deliver_write_reply (h : GcsHandle) (reply : redisReply) (idx : Int) :
    deliver h (.write_reply reply idx) =
      if reply.integer ∈ h.acked_seqnums then
        .ok (⟨h.assigned_seqnums, h.acked_seqnums.erase reply.integer⟩, [Add idx])
      else .ok (⟨insert reply.integer h.assigned_seqnums, h.acked_seqnums⟩, []) := rfl

theorem run_nil (h : GcsHandle) : run h [] = .ok (h, []) := rfl

theorem run_cons_ok (h h1 : GcsHandle) (e : Event) (es : List Event) (fired1 : List Privdata)
    (hd : deliver h e = .ok (h1, fired1)) :
    run h (e :: es) =
      match run h1 es with
      | .error f => .error f
      | .ok (h2, fired2) => .ok (h2, fired1 ++ fired2) := by
  simp only [run, hd]

/-! ## The claims -/

/-- C1 (fails on the code): with an empty handle, sequence number 42 and
completion token 1, the order "assigned, then acked" launches the callback
registered under the subscription's `NULL` privdata, not the one under
token 1; only the order "acked, then assigned" launches the callback of
token 1. Both orders launch one callback and leave both sets empty. -/
theorem C1_assigned_then_acked_launches_NULL :
    run GcsHandle.init [.write_reply (integerReply 42) 1, .ack_frame (messageFrame "c" "42")]
        = .ok (GcsHandle.init, [NULL]) ∧
      run GcsHandle.init [.ack_frame (messageFrame "c" "42"), .write_reply (integerReply 42) 1]
        = .ok (GcsHandle.init, [1]) ∧
      NULL ≠ (1 : Privdata) := by
  decide

/-- C2 (fails on the code): after the write reply assigning 42 to the write
of token 7, the ack frame for 42 removes 42 from `assigned_seqnums` and
launches the callback found under the privdata of the subscribe
registration, `NULL`, not the one under token 7, which the set of sequence
numbers does not remember. -/
theorem C2_acked_match_launches_subscribe_privdata :
    AssignedSeqnumCallback GcsHandle.init (integerReply 42) (Add 7)
        = .ok (⟨{42}, ∅⟩, []) ∧
      AckedSeqnumCallback ⟨{42}, ∅⟩ (messageFrame "c" "42") AttachToEventLoop.privdata
        = .ok (⟨∅, ∅⟩, [NULL]) ∧
      NULL ≠ Add 7 := by
  decide

/-- C3: `AssignedSeqnumCallback` with reply integer `seq` and privdata `token`,
in every state. If `seq` is in `acked_seqnums`, it is erased from there,
exactly the callback of `token` is launched, once, and `assigned_seqnums` is
unchanged; `seq` is then no longer in `acked_seqnums`, and not in
`assigned_seqnums` either when the two sets were disjoint. Otherwise `seq`
is inserted into `assigned_seqnums`, no callback is launched and
`acked_seqnums` is unchanged. -/
theorem C3_assigned_contract (h : GcsHandle) (reply : redisReply) (token : Privdata) :
    (reply.integer ∈ h.acked_seqnums →
      ∃ h1, AssignedSeqnumCallback h reply token = .ok (h1, [token]) ∧
        h1.acked_seqnums = h.acked_seqnums.erase reply.integer ∧
        h1.assigned_seqnums = h.assigned_seqnums ∧
        reply.integer ∉ h1.acked_seqnums ∧
        (Disjoint h.assigned_seqnums h.acked_seqnums → reply.integer ∉ h1.assigned_seqnums)) ∧
    (reply.integer ∉ h.acked_seqnums →
      ∃ h1, AssignedSeqnumCallback h reply token = .ok (h1, []) ∧
        h1.assigned_seqnums = insert reply.integer h.assigned_seqnums ∧
        h1.acked_seqnums = h.acked_seqnums) := by
  constructor
  · intro hin
    refine ⟨⟨h.assigned_seqnums, h.acked_seqnums.erase reply.integer⟩, ?_, rfl, rfl, ?_, ?_⟩
    · rw [AssignedSeqnumCallback_eq, if_pos hin]
    · exact Finset.not_mem_erase _ _
    · intro hdis hmem
      exact (Finset.disjoint_left.mp hdis hmem) hin
  · intro hout
    refine ⟨⟨insert reply.integer h.assigned_seqnums, h.acked_seqnums⟩, ?_, rfl, rfl⟩
    rw [AssignedSeqnumCallback_eq, if_neg hout]

/-- C3, at the handle holding the early ack of 43 and at the empty handle. -/
theorem C3_assigned_contract_witness :
    (∃ h1, AssignedSeqnumCallback ⟨∅, {43}⟩ (integerReply 43) 2 = .ok (h1, [2]) ∧
        h1.acked_seqnums = ({43} : Finset Int).erase 43 ∧
        h1.assigned_seqnums = ∅ ∧
        (43 : Int) ∉ h1.acked_seqnums ∧
        (Disjoint (∅ : Finset Int) {43} → (43 : Int) ∉ h1.assigned_seqnums)) ∧
    (∃ h1, AssignedSeqnumCallback GcsHandle.init (integerReply 43) 2 = .ok (h1, []) ∧
        h1.assigned_seqnums = insert 43 ∅ ∧
        h1.acked_seqnums = ∅) :=
  ⟨(C3_assigned_contract ⟨∅, {43}⟩ (integerReply 43) 2).1 (by decide),
   (C3_assigned_contract GcsHandle.init (integerReply 43) 2).2 (by decide)⟩

theorem AckedSeqnumCallback_cases (h : GcsHandle) (reply : redisReply) (privdata : Privdata) :
    (∃ f, AckedSeqnumCallback h reply privdata = .error f) ∨
      AckedSeqnumCallback h reply privdata = .ok (h, []) ∨
      ∃ seq, receivedSn reply = some seq := by
  by_cases hlen : reply.element.length < 3
  · exact Or.inl ⟨_, AckedSeqnumCallback_short h reply privdata hlen⟩
  · obtain ⟨e0, e1, payload, rest, hel⟩ :
        ∃ e0 e1 payload rest, reply.element = e0 :: e1 :: payload :: rest := by
      match hes : reply.element with
      | [] => simp [hes] at hlen
      | [_] => simp [hes] at hlen
      | [_, _] => simp [hes] at hlen
      | e0 :: e1 :: payload :: rest => exact ⟨e0, e1, payload, rest, rfl⟩
    cases hp : payload.str with
    | none => exact Or.inr (Or.inl (AckedSeqnumCallback_subscribed h reply privdata _ _ _ _ hel hp))
    | some str =>
      cases hst : stoi str with
      | error f =>
        exact Or.inl ⟨f, AckedSeqnumCallback_unparsed h reply privdata _ _ _ _ str f hel hp hst⟩
      | ok n =>
        refine Or.inr (Or.inr ⟨n, ?_⟩)
        simp only [receivedSn, hel, hp, hst]

theorem deliver_disjoint (h h1 : GcsHandle) (e : Event) (fired : List Privdata)
    (hdis : Disjoint h.assigned_seqnums h.acked_seqnums)
    (hd : deliver h e = .ok (h1, fired)) :
    Disjoint h1.assigned_seqnums h1.acked_seqnums := by
  cases e with
  | write_reply reply idx =>
    rw [deliver_write_reply] at hd
    split_ifs at hd with hin
    · simp only [Except.ok.injEq, Prod.mk.injEq] at hd
      rw [← hd.1]
      exact hdis.mono_right (Finset.erase_subset _ _)
    · simp only [Except.ok.injEq, Prod.mk.injEq] at hd
      rw [← hd.1]
      exact Finset.disjoint_insert_left.mpr ⟨hin, hdis⟩
  | ack_frame reply =>
    rcases AckedSeqnumCallback_cases h reply AttachToEventLoop.privdata with ⟨f, hf⟩ | hsub | ⟨seq, hs⟩
    · simp only [deliver, hf] at hd
      cases hd
    · simp only [deliver, hsub, Except.ok.injEq, Prod.mk.injEq] at hd
      rw [← hd.1]
      exact hdis
    · rw [deliver_ack_frame h reply seq hs] at hd
      by_cases hin : seq ∈ h.assigned_seqnums
      · simp only [hin, not_true_eq_false, if_false, Except.ok.injEq, Prod.mk.injEq] at hd
        rw [← hd.1]
        exact hdis.mono_left (Finset.erase_subset _ _)
      · simp only [hin, not_false_eq_true, if_true, Except.ok.injEq, Prod.mk.injEq] at hd
        rw [← hd.1]
        exact Finset.disjoint_insert_right.mpr ⟨hin, hdis⟩

theorem run_disjoint (evs : List Event) :
    ∀ (h h1 : GcsHandle) (fired : List Privdata),
      Disjoint h.assigned_seqnums h.acked_seqnums → run h evs = .ok (h1, fired) →
      Disjoint h1.assigned_seqnums h1.acked_seqnums := by
  induction evs with
  | nil =>
    intro h h1 fired hdis hr
    simp only [run, Except.ok.injEq, Prod.mk.injEq] at hr
    rw [← hr.1]
    exact hdis
  | cons e es ih =>
    intro h h1 fired hdis hr
    cases hd : deliver h e with
    | error f => simp only [run, hd] at hr; cases hr
    | ok p =>
      obtain ⟨h2, fired2⟩ := p
      rw [run_cons_ok h h2 e es fired2 hd] at hr
      cases hr2 : run h2 es with
      | error f => simp only [hr2] at hr; cases hr
      | ok q =>
        obtain ⟨h3, fired3⟩ := q
        simp only [hr2, Except.ok.injEq, Prod.mk.injEq] at hr
        rw [← hr.1]
        exact ih h2 h3 fired3 (deliver_disjoint h h2 e fired2 hdis hd) hr2

/-- C4: in every state that the event loop reaches from the empty handle, by
any finite sequence of write replies and ack frames, no sequence number is
in both `assigned_seqnums` and `acked_seqnums`. -/
theorem C4_disjoint_invariant (evs : List Event) (h : GcsHandle) (fired : List Privdata)
    (hrun : run GcsHandle.init evs = .ok (h, fired)) (seq : Int) :
    ¬ (seq ∈ h.assigned_seqnums ∧ seq ∈ h.acked_seqnums) := by
  have hdis : Disjoint h.assigned_seqnums h.acked_seqnums :=
    run_disjoint evs GcsHandle.init h fired (Finset.disjoint_empty_left _) hrun
  rintro ⟨ha, hk⟩
  exact (Finset.disjoint_left.mp hdis ha) hk

/-- C4, on a run with a duplicate assignment, a duplicate ack and an unmatched ack. -/
theorem C4_disjoint_invariant_witness :
    run GcsHandle.init
        [.write_reply (integerReply 5) 1, .write_reply (integerReply 5) 2,
         .ack_frame (messageFrame "c" "6"), .ack_frame (messageFrame "c" "5"),
         .ack_frame (messageFrame "c" "5")]
      = .ok (⟨∅, {5, 6}⟩, [NULL]) ∧
    ¬ ((5 : Int) ∈ (⟨∅, {5, 6}⟩ : GcsHandle).assigned_seqnums ∧
        (5 : Int) ∈ (⟨∅, {5, 6}⟩ : GcsHandle).acked_seqnums) :=
  ⟨by decide,
   C4_disjoint_invariant
     [.write_reply (integerReply 5) 1, .write_reply (integerReply 5) 2,
      .ack_frame (messageFrame "c" "6"), .ack_frame (messageFrame "c" "5"),
      .ack_frame (messageFrame "c" "5")]
     ⟨∅, {5, 6}⟩ [NULL] (by decide) 5⟩

/-- C5 (fails on the code): after the write reply and the ack frame for 42
have completed the write (one callback launched, both sets empty again), a
duplicate ack frame for 42 launches no callback and raises no error, but it
does not leave the sets as they were: 42 is inserted into `acked_seqnums`. -/
theorem C5_duplicate_ack_changes_acked_seqnums :
    run GcsHandle.init [.write_reply (integerReply 42) 1, .ack_frame (messageFrame "c" "42")]
        = .ok (GcsHandle.init, [NULL]) ∧
      deliver GcsHandle.init (.ack_frame (messageFrame "c" "42")) = .ok (⟨∅, {42}⟩, []) ∧
      (⟨∅, {42}⟩ : GcsHandle) ≠ GcsHandle.init := by
  decide

/-- C5, as the code has it: in every state in which `seq` is in neither set, in
particular after `seq` has completed, an ack frame carrying `seq` launches
no callback, raises no error, leaves `assigned_seqnums` unchanged and
inserts `seq` into `acked_seqnums`. -/
theorem C5_duplicate_ack_is_buffered (h : GcsHandle) (reply : redisReply)
    (privdata : Privdata) (seq : Int) (hs : receivedSn reply = some seq)
    (hA : seq ∉ h.assigned_seqnums) (_hK : seq ∉ h.acked_seqnums) :
    AckedSeqnumCallback h reply privdata
      = .ok (⟨h.assigned_seqnums, insert seq h.acked_seqnums⟩, []) := by
  rw [AckedSeqnumCallback_data h reply privdata seq hs, if_pos hA]

/-- C5 as amended, at the duplicate ack frame for 42 on the empty handle. -/
theorem C5_duplicate_ack_is_buffered_witness :
    receivedSn (messageFrame "c" "42") = some 42 ∧
      (42 : Int) ∉ GcsHandle.init.assigned_seqnums ∧
      (42 : Int) ∉ GcsHandle.init.acked_seqnums ∧
      AckedSeqnumCallback GcsHandle.init (messageFrame "c" "42") NULL
        = .ok (⟨GcsHandle.init.assigned_seqnums, insert 42 GcsHandle.init.acked_seqnums⟩, []) :=
  ⟨by decide, by decide, by decide,
    C5_duplicate_ack_is_buffered GcsHandle.init (messageFrame "c" "42") NULL 42
      (by decide) (by decide) (by decide)⟩

/-- Order independence, for the acks that are parsed: from every state in which
`seq` is in neither set, delivering the write reply for `seq` and then an
ack frame off which `AckedSeqnumCallback` reads `seq` ends in the same pair
of sets as delivering them in the opposite order, and that pair is the
starting pair; either order launches one callback. -/
theorem order_independent_of_parsed_ack (h : GcsHandle) (write ack : redisReply)
    (done_callback_idx seq : Int) (hw : write.integer = seq) (hs : receivedSn ack = some seq)
    (hA : seq ∉ h.assigned_seqnums) (hK : seq ∉ h.acked_seqnums) :
    run h [.write_reply write done_callback_idx, .ack_frame ack]
        = .ok (h, [AttachToEventLoop.privdata]) ∧
      run h [.ack_frame ack, .write_reply write done_callback_idx]
        = .ok (h, [Add done_callback_idx]) := by
  subst hw
  constructor
  · have h1 : deliver h (.write_reply write done_callback_idx)
        = .ok (⟨insert write.integer h.assigned_seqnums, h.acked_seqnums⟩, []) := by
      rw [deliver_write_reply, if_neg hK]
    have h2 : deliver ⟨insert write.integer h.assigned_seqnums, h.acked_seqnums⟩ (.ack_frame ack)
        = .ok (h, [AttachToEventLoop.privdata]) := by
      rw [deliver_ack_frame _ ack _ hs]
      simp only [Finset.mem_insert, true_or, not_true_eq_false, if_false]
      rw [Finset.erase_insert hA]
    rw [run_cons_ok _ _ _ _ _ h1, run_cons_ok _ _ _ _ _ h2, run_nil]
    rfl
  · have h1 : deliver h (.ack_frame ack)
        = .ok (⟨h.assigned_seqnums, insert write.integer h.acked_seqnums⟩, []) := by
      rw [deliver_ack_frame _ ack _ hs, if_pos hA]
    have h2 : deliver ⟨h.assigned_seqnums, insert write.integer h.acked_seqnums⟩
          (.write_reply write done_callback_idx)
        = .ok (h, [Add done_callback_idx]) := by
      rw [deliver_write_reply]
      simp only [Finset.mem_insert, true_or, if_true]
      rw [Finset.erase_insert hK]
    rw [run_cons_ok _ _ _ _ _ h1, run_cons_ok _ _ _ _ _ h2, run_nil]
    rfl

/-- Order independence for sequence number 42, on a handle that waits on 7 and
buffers 9. -/
theorem order_independent_of_parsed_ack_example :
    (integerReply 42).integer = 42 ∧ receivedSn (messageFrame "c" "42") = some 42 ∧
      (42 : Int) ∉ (⟨{7}, {9}⟩ : GcsHandle).assigned_seqnums ∧
      (42 : Int) ∉ (⟨{7}, {9}⟩ : GcsHandle).acked_seqnums ∧
      run ⟨{7}, {9}⟩ [.write_reply (integerReply 42) 3, .ack_frame (messageFrame "c" "42")]
        = .ok (⟨{7}, {9}⟩, [AttachToEventLoop.privdata]) ∧
      run ⟨{7}, {9}⟩ [.ack_frame (messageFrame "c" "42"), .write_reply (integerReply 42) 3]
        = .ok (⟨{7}, {9}⟩, [Add 3]) :=
  ⟨by decide, by decide, by decide, by decide,
    order_independent_of_parsed_ack ⟨{7}, {9}⟩ (integerReply 42) (messageFrame "c" "42") 3 42
      (by decide) (by decide) (by decide) (by decide)⟩

/-- C6 (fails on the code): for the sequence number 2147483648, which fits the
`int64_t` of the sets and of the write reply, the two orders do not end in
the starting pair of sets. The write reply inserts it into
`assigned_seqnums`; the ack frame carrying its decimal text makes
`std::stoi` throw `std::out_of_range`, in the empty handle as well as in the
one that waits on it, so the entry is never erased and neither order
completes. For 2147483647, the largest `int`, both orders end in the
starting pair. -/
theorem C6_order_independence_fails_above_INT_MAX :
    INT64_MIN ≤ 2147483648 ∧ (2147483648 : Int) ≤ INT64_MAX ∧
      decimal 2147483648 = "2147483648" ∧
      AssignedSeqnumCallback GcsHandle.init (integerReply 2147483648) (Add 1)
        = .ok (⟨{2147483648}, ∅⟩, []) ∧
      AckedSeqnumCallback ⟨{2147483648}, ∅⟩ (messageFrame "c" (decimal 2147483648))
          AttachToEventLoop.privdata
        = .error .out_of_range ∧
      AckedSeqnumCallback GcsHandle.init (messageFrame "c" (decimal 2147483648))
          AttachToEventLoop.privdata
        = .error .out_of_range ∧
      run GcsHandle.init
          [.write_reply (integerReply 2147483648) 1,
           .ack_frame (messageFrame "c" (decimal 2147483648))]
        = .error .out_of_range ∧
      run GcsHandle.init
          [.ack_frame (messageFrame "c" (decimal 2147483648)),
           .write_reply (integerReply 2147483648) 1]
        = .error .out_of_range ∧
      run GcsHandle.init
          [.write_reply (integerReply 2147483647) 1,
           .ack_frame (messageFrame "c" (decimal 2147483647))]
        = .ok (GcsHandle.init, [NULL]) ∧
      run GcsHandle.init
          [.ack_frame (messageFrame "c" (decimal 2147483647)),
           .write_reply (integerReply 2147483647) 1]
        = .ok (GcsHandle.init, [1]) := by
  decide

/-- C8: in every state, when `AckedSeqnumCallback` receives a frame of three
elements (or more) whose payload element `element[2]` has a null string, it
returns normally without launching any callback and leaves both
`assigned_seqnums` and `acked_seqnums` unchanged. -/
theorem C8_subscription_frame_ignored (h : GcsHandle) (reply : redisReply)
    (privdata : Privdata) (e0 e1 payload : redisReply) (rest : List redisReply)
    (hel : reply.element = e0 :: e1 :: payload :: rest) (hp : payload.str = none) :
    AckedSeqnumCallback h reply privdata = .ok (h, []) :=
  AckedSeqnumCallback_subscribed h reply privdata e0 e1 payload rest hel hp

/-- C8, at the confirmation frame of `SUBSCRIBE`, on a handle with entries in both sets. -/
theorem C8_subscription_frame_ignored_witness :
    (subscribeFrame "c" 1).element
        = [stringReply "subscribe", stringReply "c", integerReply 1] ∧
      (integerReply 1).str = none ∧
      AckedSeqnumCallback ⟨{7}, {9}⟩ (subscribeFrame "c" 1) NULL = .ok (⟨{7}, {9}⟩, []) :=
  ⟨rfl, rfl,
    C8_subscription_frame_ignored ⟨{7}, {9}⟩ (subscribeFrame "c" 1) NULL
      (stringReply "subscribe") (stringReply "c") (integerReply 1) [] rfl rfl⟩

/-- C10 (fails on the code): an error reply on the write path is not kept away
from the sets. On the empty handle its zero `integer` field is inserted into
`assigned_seqnums`; on a handle that buffers the ack of 0 it erases that
ack and launches the callback of the write, as for a successful match. -/
theorem C10_error_reply_feeds_the_sets :
    AssignedSeqnumCallback GcsHandle.init (errorReply "ERR unknown command") (Add 1)
        = .ok (⟨{0}, ∅⟩, []) ∧
      (⟨{0}, ∅⟩ : GcsHandle) ≠ GcsHandle.init ∧
      AssignedSeqnumCallback ⟨∅, {0}⟩ (errorReply "ERR unknown command") (Add 1)
        = .ok (⟨∅, ∅⟩, [1]) := by
  decide

/-- C10, as the code has it: `AssignedSeqnumCallback` does not look at the type
of the reply. Every reply, an error reply included, is handled as the
integer reply carrying the value of its `integer` field: if that value is in
`acked_seqnums` it is erased from there and the callback of the privdata is
launched, otherwise it is inserted into `assigned_seqnums`. -/
theorem C10_reply_type_not_inspected (h : GcsHandle) (reply : redisReply)
    (privdata : Privdata) :
    AssignedSeqnumCallback h reply privdata
        = AssignedSeqnumCallback h (integerReply reply.integer) privdata ∧
      AssignedSeqnumCallback h reply privdata =
        if reply.integer ∈ h.acked_seqnums then
          .ok (⟨h.assigned_seqnums, h.acked_seqnums.erase reply.integer⟩, [privdata])
        else .ok (⟨insert reply.integer h.assigned_seqnums, h.acked_seqnums⟩, []) :=
  ⟨rfl, rfl⟩

theorem run_append (es1 es2 : List Event) :
    ∀ h : GcsHandle, run h (es1 ++ es2) =
      match run h es1 with
      | .error f => .error f
      | .ok (h1, fired1) =>
        match run h1 es2 with
        | .error f => .error f
        | .ok (h2, fired2) => .ok (h2, fired1 ++ fired2) := by
  induction es1 with
  | nil =>
    intro h
    simp only [List.nil_append, run, List.nil_append]
    cases run h es2 with
    | error f => rfl
    | ok p => rfl
  | cons e es ih =>
    intro h
    have hstep : ∀ l : List Event, run h (e :: l) =
        match deliver h e with
        | .error f => .error f
        | .ok (h1, fired1) =>
          match run h1 l with
          | .error f => .error f
          | .ok (h2, fired2) => .ok (h2, fired1 ++ fired2) := fun _ => rfl
    rw [List.cons_append, hstep, hstep]
    cases deliver h e with
    | error f => rfl
    | ok p =>
      obtain ⟨h1, fired1⟩ := p
      simp only
      rw [ih h1]
      cases run h1 es with
      | error f => rfl
      | ok q =>
        obtain ⟨h2, fired2⟩ := q
        simp only
        cases run h2 es2 with
        | error f => rfl
        | ok r => simp only [List.append_assoc]

theorem run_snoc_ok (h h1 h2 : GcsHandle) (es : List Event) (e : Event)
    (fired1 fired2 : List Privdata) (hr : run h es = .ok (h1, fired1))
    (hd : deliver h1 e = .ok (h2, fired2)) :
    run h (es ++ [e]) = .ok (h2, fired1 ++ fired2) := by
  rw [run_append, hr]
  simp only [run, hd, List.append_nil]

theorem assignedSeqs_snoc_write (es : List Event) (reply : redisReply) (idx : Int) :
    assignedSeqs (es ++ [.write_reply reply idx]) = assignedSeqs es ++ [reply.integer] := by
  simp [assignedSeqs, List.filterMap_append, Event.assigned?]

theorem ackedSeqs_snoc_write (es : List Event) (reply : redisReply) (idx : Int) :
    ackedSeqs (es ++ [.write_reply reply idx]) = ackedSeqs es := by
  simp [ackedSeqs, List.filterMap_append, Event.acked?]

theorem assignedSeqs_snoc_ack (es : List Event) (reply : redisReply) :
    assignedSeqs (es ++ [.ack_frame reply]) = assignedSeqs es := by
  simp [assignedSeqs, List.filterMap_append, Event.assigned?]

theorem ackedSeqs_snoc_ack (es : List Event) (reply : redisReply) (seq : Int)
    (hs : receivedSn reply = some seq) :
    ackedSeqs (es ++ [.ack_frame reply]) = ackedSeqs es ++ [seq] := by
  simp [ackedSeqs, List.filterMap_append, Event.acked?, hs]

/-- The state of a run from the empty handle in which no sequence number is
assigned twice or acknowledged twice: the sets hold the sequence numbers
seen on one side only, and one callback was launched per sequence number
seen on both sides. -/
theorem run_matching (evs : List Event) :
    (∀ e ∈ evs, e.carriesSeq) → (assignedSeqs evs).Nodup → (ackedSeqs evs).Nodup →
    ∃ h fired, run GcsHandle.init evs = .ok (h, fired) ∧
      h.assigned_seqnums = (assignedSeqs evs).toFinset \ (ackedSeqs evs).toFinset ∧
      h.acked_seqnums = (ackedSeqs evs).toFinset \ (assignedSeqs evs).toFinset ∧
      fired.length = ((assignedSeqs evs).toFinset ∩ (ackedSeqs evs).toFinset).card := by
  induction evs using List.reverseRecOn with
  | nil =>
    intro _ _ _
    exact ⟨GcsHandle.init, [], rfl, by simp [assignedSeqs, ackedSeqs, GcsHandle.init],
      by simp [assignedSeqs, ackedSeqs, GcsHandle.init], by simp [assignedSeqs, ackedSeqs]⟩
  | append_singleton es e ih =>
    intro hwf hA hK
    have hwf1 : ∀ x ∈ es, x.carriesSeq := fun x hx => hwf x (List.mem_append_left _ hx)
    have hwe : e.carriesSeq := hwf e (List.mem_append_right _ (List.mem_singleton_self e))
    cases e with
    | write_reply reply idx =>
      rw [assignedSeqs_snoc_write] at hA ⊢
      rw [ackedSeqs_snoc_write] at hK ⊢
      have hA1 : (assignedSeqs es).Nodup := (List.nodup_append.mp hA).1
      have hnew : reply.integer ∉ assignedSeqs es := by
        intro hin
        exact (List.nodup_append.mp hA).2.2 hin (List.mem_singleton_self _)
      obtain ⟨h, fired, hr, hAs, hKs, hlen⟩ := ih hwf1 hA1 hK
      by_cases hin : reply.integer ∈ h.acked_seqnums
      · have hd : deliver h (.write_reply reply idx)
            = .ok (⟨h.assigned_seqnums, h.acked_seqnums.erase reply.integer⟩, [Add idx]) := by
          rw [deliver_write_reply, if_pos hin]
        refine ⟨_, _, run_snoc_ok _ _ _ _ _ _ _ hr hd, ?_, ?_, ?_⟩
        · rw [hKs] at hin
          simp only [hAs]
          ext x
          simp only [Finset.mem_sdiff, List.mem_toFinset, List.mem_append, List.mem_singleton]
          simp only [Finset.mem_sdiff, List.mem_toFinset] at hin
          constructor
          · rintro ⟨h1, h2⟩
            exact ⟨Or.inl h1, h2⟩
          · rintro ⟨h1 | h1, h2⟩
            · exact ⟨h1, h2⟩
            · subst h1
              exact absurd hin.1 h2
        · simp only [hKs]
          ext x
          simp only [Finset.mem_erase, Finset.mem_sdiff, List.mem_toFinset, List.mem_append,
            List.mem_singleton]
          tauto
        · rw [hKs] at hin
          simp only [Finset.mem_sdiff, List.mem_toFinset] at hin
          have hset : (assignedSeqs es ++ [reply.integer]).toFinset ∩ (ackedSeqs es).toFinset
              = insert reply.integer ((assignedSeqs es).toFinset ∩ (ackedSeqs es).toFinset) := by
            ext x
            simp only [Finset.mem_inter, Finset.mem_insert, List.mem_toFinset, List.mem_append,
              List.mem_singleton]
            constructor
            · rintro ⟨h1 | h1, h2⟩
              · exact Or.inr ⟨h1, h2⟩
              · exact Or.inl h1
            · rintro (h1 | ⟨h1, h2⟩)
              · subst h1
                exact ⟨Or.inr rfl, hin.1⟩
              · exact ⟨Or.inl h1, h2⟩
          rw [hset, Finset.card_insert_of_not_mem, List.length_append, hlen]
          · rfl
          · simp only [Finset.mem_inter, List.mem_toFinset]
            exact fun hx => hnew hx.1
      · have hd : deliver h (.write_reply reply idx)
            = .ok (⟨insert reply.integer h.assigned_seqnums, h.acked_seqnums⟩, []) := by
          rw [deliver_write_reply, if_neg hin]
        rw [hKs] at hin
        simp only [Finset.mem_sdiff, List.mem_toFinset, not_and, not_not] at hin
        have hnk : reply.integer ∉ ackedSeqs es := fun hk => hnew (hin hk)
        refine ⟨_, _, run_snoc_ok _ _ _ _ _ _ _ hr hd, ?_, ?_, ?_⟩
        · simp only [hAs]
          ext x
          simp only [Finset.mem_insert, Finset.mem_sdiff, List.mem_toFinset, List.mem_append,
            List.mem_singleton]
          constructor
          · rintro (h1 | ⟨h1, h2⟩)
            · subst h1
              exact ⟨Or.inr rfl, hnk⟩
            · exact ⟨Or.inl h1, h2⟩
          · rintro ⟨h1 | h1, h2⟩
            · exact Or.inr ⟨h1, h2⟩
            · exact Or.inl h1
        · simp only [hKs]
          ext x
          simp only [Finset.mem_sdiff, List.mem_toFinset, List.mem_append, List.mem_singleton]
          constructor
          · rintro ⟨h1, h2⟩
            refine ⟨h1, ?_⟩
            rintro (h3 | h3)
            · exact h2 h3
            · subst h3
              exact hnk h1
          · rintro ⟨h1, h2⟩
            exact ⟨h1, fun h3 => h2 (Or.inl h3)⟩
        · have hset : (assignedSeqs es ++ [reply.integer]).toFinset ∩ (ackedSeqs es).toFinset
              = (assignedSeqs es).toFinset ∩ (ackedSeqs es).toFinset := by
            ext x
            simp only [Finset.mem_inter, List.mem_toFinset, List.mem_append, List.mem_singleton]
            constructor
            · rintro ⟨h1 | h1, h2⟩
              · exact ⟨h1, h2⟩
              · subst h1
                exact absurd h2 hnk
            · rintro ⟨h1, h2⟩
              exact ⟨Or.inl h1, h2⟩
          rw [hset, List.append_nil, hlen]
    | ack_frame reply =>
      obtain ⟨seq, hs⟩ := hwe
      rw [assignedSeqs_snoc_ack] at hA ⊢
      rw [ackedSeqs_snoc_ack es reply seq hs] at hK ⊢
      have hK1 : (ackedSeqs es).Nodup := (List.nodup_append.mp hK).1
      have hnew : seq ∉ ackedSeqs es := by
        intro hin
        exact (List.nodup_append.mp hK).2.2 hin (List.mem_singleton_self _)
      obtain ⟨h, fired, hr, hAs, hKs, hlen⟩ := ih hwf1 hA hK1
      by_cases hin : seq ∈ h.assigned_seqnums
      · have hd : deliver h (.ack_frame reply)
            = .ok (⟨h.assigned_seqnums.erase seq, h.acked_seqnums⟩,
                [AttachToEventLoop.privdata]) := by
          rw [deliver_ack_frame h reply seq hs]
          simp only [hin, not_true_eq_false, if_false]
        rw [hAs] at hin
        simp only [Finset.mem_sdiff, List.mem_toFinset] at hin
        refine ⟨_, _, run_snoc_ok _ _ _ _ _ _ _ hr hd, ?_, ?_, ?_⟩
        · simp only [hAs]
          ext x
          simp only [Finset.mem_erase, Finset.mem_sdiff, List.mem_toFinset, List.mem_append,
            List.mem_singleton]
          tauto
        · simp only [hKs]
          ext x
          simp only [Finset.mem_sdiff, List.mem_toFinset, List.mem_append, List.mem_singleton]
          constructor
          · rintro ⟨h1, h2⟩
            exact ⟨Or.inl h1, h2⟩
          · rintro ⟨h1 | h1, h2⟩
            · exact ⟨h1, h2⟩
            · subst h1
              exact absurd hin.1 h2
        · have hset : (assignedSeqs es).toFinset ∩ (ackedSeqs es ++ [seq]).toFinset
              = insert seq ((assignedSeqs es).toFinset ∩ (ackedSeqs es).toFinset) := by
            ext x
            simp only [Finset.mem_inter, Finset.mem_insert, List.mem_toFinset, List.mem_append,
              List.mem_singleton]
            constructor
            · rintro ⟨h1, h2 | h2⟩
              · exact Or.inr ⟨h1, h2⟩
              · exact Or.inl h2
            · rintro (h1 | ⟨h1, h2⟩)
              · subst h1
                exact ⟨hin.1, Or.inr rfl⟩
              · exact ⟨h1, Or.inl h2⟩
          rw [hset, Finset.card_insert_of_not_mem, List.length_append, hlen]
          · rfl
          · simp only [Finset.mem_inter, List.mem_toFinset]
            exact fun hx => hnew hx.2
      · have hd : deliver h (.ack_frame reply)
            = .ok (⟨h.assigned_seqnums, insert seq h.acked_seqnums⟩, []) := by
          rw [deliver_ack_frame h reply seq hs, if_pos hin]
        rw [hAs] at hin
        simp only [Finset.mem_sdiff, List.mem_toFinset, not_and, not_not] at hin
        have hna : seq ∉ assignedSeqs es := fun ha => hnew (hin ha)
        refine ⟨_, _, run_snoc_ok _ _ _ _ _ _ _ hr hd, ?_, ?_, ?_⟩
        · simp only [hAs]
          ext x
          simp only [Finset.mem_sdiff, List.mem_toFinset, List.mem_append, List.mem_singleton]
          constructor
          · rintro ⟨h1, h2⟩
            refine ⟨h1, ?_⟩
            rintro (h3 | h3)
            · exact h2 h3
            · subst h3
              exact hna h1
          · rintro ⟨h1, h2⟩
            exact ⟨h1, fun h3 => h2 (Or.inl h3)⟩
        · simp only [hKs]
          ext x
          simp only [Finset.mem_insert, Finset.mem_sdiff, List.mem_toFinset, List.mem_append,
            List.mem_singleton]
          constructor
          · rintro (h1 | ⟨h1, h2⟩)
            · subst h1
              exact ⟨Or.inr rfl, hna⟩
            · exact ⟨Or.inl h1, h2⟩
          · rintro ⟨h1 | h1, h2⟩
            · exact Or.inr ⟨h1, h2⟩
            · exact Or.inl h1
        · have hset : (assignedSeqs es).toFinset ∩ (ackedSeqs es ++ [seq]).toFinset
              = (assignedSeqs es).toFinset ∩ (ackedSeqs es).toFinset := by
            ext x
            simp only [Finset.mem_inter, List.mem_toFinset, List.mem_append, List.mem_singleton]
            constructor
            · rintro ⟨h1, h2 | h2⟩
              · exact ⟨h1, h2⟩
              · subst h2
                exact absurd h1 hna
            · rintro ⟨h1, h2⟩
              exact ⟨h1, Or.inl h2⟩
          rw [hset, List.append_nil, hlen]

/-- The memory bound, for the acks that are parsed: for every list `seqs` of
pairwise distinct sequence numbers and every sequence of events, all
carrying a sequence number that the callbacks read off them, in which each
member of `seqs` is assigned by exactly one write reply and acknowledged by
exactly one ack frame (and no other sequence number occurs), in whatever
order: the event loop started on the empty handle runs to the end, both
`assigned_seqnums` and `acked_seqnums` are empty afterwards, and exactly
`seqs.length` callbacks have been launched. -/
theorem memory_bound_of_parsed_acks (seqs : List Int) (evs : List Event) (hnd : seqs.Nodup)
    (hwf : ∀ e ∈ evs, e.carriesSeq) (hA : (assignedSeqs evs).Perm seqs)
    (hK : (ackedSeqs evs).Perm seqs) :
    ∃ fired, run GcsHandle.init evs = .ok (⟨∅, ∅⟩, fired) ∧ fired.length = seqs.length := by
  obtain ⟨h, fired, hr, hAs, hKs, hlen⟩ :=
    run_matching evs hwf (hA.nodup_iff.mpr hnd) (hK.nodup_iff.mpr hnd)
  have hAf : (assignedSeqs evs).toFinset = seqs.toFinset := List.toFinset_eq_of_perm _ _ hA
  have hKf : (ackedSeqs evs).toFinset = seqs.toFinset := List.toFinset_eq_of_perm _ _ hK
  rw [hAf, hKf] at hAs hKs hlen
  rw [sdiff_self] at hAs hKs
  rw [Finset.inter_self, List.toFinset_card_of_nodup hnd] at hlen
  refine ⟨fired, ?_, hlen⟩
  rw [hr]
  obtain ⟨a, k⟩ := h
  simp only at hAs hKs
  rw [hAs, hKs]
  rfl

/-- The memory bound for the three writes 1, 2, 3: the first is acknowledged
after its reply, the second before, the third between the two others. -/
theorem memory_bound_of_parsed_acks_example :
    ∃ fired,
      run GcsHandle.init
          [.write_reply (integerReply 1) 11, .ack_frame (messageFrame "c" "2"),
           .write_reply (integerReply 3) 13, .ack_frame (messageFrame "c" "3"),
           .write_reply (integerReply 2) 12, .ack_frame (messageFrame "c" "1")]
        = .ok (⟨∅, ∅⟩, fired) ∧ fired.length = [1, 2, 3].length :=
  memory_bound_of_parsed_acks [1, 2, 3]
    [.write_reply (integerReply 1) 11, .ack_frame (messageFrame "c" "2"),
     .write_reply (integerReply 3) 13, .ack_frame (messageFrame "c" "3"),
     .write_reply (integerReply 2) 12, .ack_frame (messageFrame "c" "1")]
    (by decide)
    (by
      intro e he
      simp only [List.mem_cons, List.mem_singleton, List.not_mem_nil, or_false] at he
      rcases he with rfl | rfl | rfl | rfl | rfl | rfl
      · trivial
      · exact ⟨2, by decide⟩
      · trivial
      · exact ⟨3, by decide⟩
      · trivial
      · exact ⟨1, by decide⟩)
    (by decide) (by decide)

/-- C7 (fails on the code): for the two writes with the distinct sequence
numbers 1 and 2147483648, each assigned by one write reply and acknowledged
by one ack frame carrying its decimal text, the sets are not both empty in
the end and two callbacks have not been launched. The write of 1 completes;
the ack of 2147483648 makes `std::stoi` throw `std::out_of_range`, so
2147483648 stays in `assigned_seqnums` and one callback only is launched.
With 2147483647 in its place both writes complete. -/
theorem C7_memory_bound_fails_above_INT_MAX :
    ([1, 2147483648] : List Int).Nodup ∧
      INT64_MIN ≤ 2147483648 ∧ (2147483648 : Int) ≤ INT64_MAX ∧
      assignedSeqs
          [.write_reply (integerReply 1) 11, .write_reply (integerReply 2147483648) 12,
           .ack_frame (messageFrame "c" (decimal 1)),
           .ack_frame (messageFrame "c" (decimal 2147483648))]
        = [1, 2147483648] ∧
      run GcsHandle.init
          [.write_reply (integerReply 1) 11, .write_reply (integerReply 2147483648) 12,
           .ack_frame (messageFrame "c" (decimal 1))]
        = .ok (⟨{2147483648}, ∅⟩, [NULL]) ∧
      AckedSeqnumCallback ⟨{2147483648}, ∅⟩ (messageFrame "c" (decimal 2147483648))
          AttachToEventLoop.privdata
        = .error .out_of_range ∧
      run GcsHandle.init
          [.write_reply (integerReply 1) 11, .write_reply (integerReply 2147483648) 12,
           .ack_frame (messageFrame "c" (decimal 1)),
           .ack_frame (messageFrame "c" (decimal 2147483648))]
        = .error .out_of_range ∧
      run GcsHandle.init
          [.write_reply (integerReply 1) 11, .write_reply (integerReply 2147483647) 12,
           .ack_frame (messageFrame "c" (decimal 1)),
           .ack_frame (messageFrame "c" (decimal 2147483647))]
        = .ok (GcsHandle.init, [NULL, NULL]) := by
  decide

/-- C11 (fails on the code): the write reply assigning 42 to the write of token
1, delivered a second time while 42 is still in `assigned_seqnums`, is
accepted without any signal: the callback returns normally, launches
nothing and leaves the handle as it was. -/
theorem C11_duplicate_assignment_accepted :
    AssignedSeqnumCallback GcsHandle.init (integerReply 42) (Add 1) = .ok (⟨{42}, ∅⟩, []) ∧
      AssignedSeqnumCallback ⟨{42}, ∅⟩ (integerReply 42) (Add 1) = .ok (⟨{42}, ∅⟩, []) ∧
      run GcsHandle.init [.write_reply (integerReply 42) 1, .write_reply (integerReply 42) 1]
        = .ok (⟨{42}, ∅⟩, []) := by
  decide

/-- C11, as the code has it: in every state with disjoint sets in which `seq` is
still in `assigned_seqnums`, a further `AssignedSeqnumCallback` with reply
integer `seq`, whatever its privdata, returns normally, launches no callback
and leaves both sets unchanged. -/
theorem C11_duplicate_assignment_silent (h : GcsHandle) (reply : redisReply)
    (token : Privdata) (hin : reply.integer ∈ h.assigned_seqnums)
    (hdis : Disjoint h.assigned_seqnums h.acked_seqnums) :
    AssignedSeqnumCallback h reply token = .ok (h, []) := by
  have hout : reply.integer ∉ h.acked_seqnums := Finset.disjoint_left.mp hdis hin
  rw [AssignedSeqnumCallback_eq, if_neg hout, Finset.insert_eq_of_mem hin]

/-- C11 as amended, at the second delivery of the reply assigning 42. -/
theorem C11_duplicate_assignment_silent_witness :
    (integerReply 42).integer ∈ (⟨{42}, {9}⟩ : GcsHandle).assigned_seqnums ∧
      Disjoint (⟨{42}, {9}⟩ : GcsHandle).assigned_seqnums
        (⟨{42}, {9}⟩ : GcsHandle).acked_seqnums ∧
      AssignedSeqnumCallback ⟨{42}, {9}⟩ (integerReply 42) (Add 1) = .ok (⟨{42}, {9}⟩, []) :=
  ⟨by decide, by decide,
    C11_duplicate_assignment_silent ⟨{42}, {9}⟩ (integerReply 42) (Add 1)
      (by decide) (by decide)⟩

/-- C13 (fails on the code): the sequence number 2147483648 fits an `int64_t`
and is assigned through the write reply, but the ack frame carrying its
decimal text is not parsed to it: `std::stoi` throws `std::out_of_range`, so
the ack never matches the assignment and no callback is launched. The
largest `int`, 2147483647, is the last sequence number that still matches. -/
theorem C13_stoi_rejects_seqnum_above_INT_MAX :
    INT64_MIN ≤ 2147483648 ∧ (2147483648 : Int) ≤ INT64_MAX ∧
      decimal 2147483648 = "2147483648" ∧
      stoi (decimal 2147483648) = .error .out_of_range ∧
      AssignedSeqnumCallback GcsHandle.init (integerReply 2147483648) (Add 1)
        = .ok (⟨{2147483648}, ∅⟩, []) ∧
      AckedSeqnumCallback ⟨{2147483648}, ∅⟩ (messageFrame "c" (decimal 2147483648))
          AttachToEventLoop.privdata
        = .error .out_of_range ∧
      run GcsHandle.init
          [.write_reply (integerReply 2147483647) 1,
           .ack_frame (messageFrame "c" (decimal 2147483647))]
        = .ok (GcsHandle.init, [NULL]) := by
  decide

theorem deliver_of_seq (h : GcsHandle) (e : Event) (seq : Int) (hs : e.seq? = some seq) :
    (∃ reply idx, e = .write_reply reply idx ∧ reply.integer = seq ∧
        deliver h e =
          if seq ∈ h.acked_seqnums then
            .ok (⟨h.assigned_seqnums, h.acked_seqnums.erase seq⟩, [Add idx])
          else .ok (⟨insert seq h.assigned_seqnums, h.acked_seqnums⟩, [])) ∨
      (∃ reply, e = .ack_frame reply ∧ receivedSn reply = some seq ∧
        deliver h e =
          if seq ∉ h.assigned_seqnums then
            .ok (⟨h.assigned_seqnums, insert seq h.acked_seqnums⟩, [])
          else
            .ok (⟨h.assigned_seqnums.erase seq, h.acked_seqnums⟩,
              [AttachToEventLoop.privdata])) := by
  cases e with
  | write_reply reply idx =>
    simp only [Event.seq?, Option.some.injEq] at hs
    refine Or.inl ⟨reply, idx, rfl, hs, ?_⟩
    rw [deliver_write_reply, hs]
  | ack_frame reply =>
    simp only [Event.seq?] at hs
    exact Or.inr ⟨reply, rfl, hs, deliver_ack_frame h reply seq hs⟩

/-- C15: in every state, an event carrying `seq`, be it a write reply or an ack
frame, is delivered without fault, leaves the membership of every other
sequence number `seq1` in `assigned_seqnums` and in `acked_seqnums`
unchanged, and launches the same callbacks in any two states that agree on
the membership of `seq` in the two sets. -/
theorem C15_events_local_to_seq (h : GcsHandle) (e : Event) (seq seq1 : Int)
    (hs : e.seq? = some seq) (hne : seq ≠ seq1) :
    ∃ h1 fired, deliver h e = .ok (h1, fired) ∧
      (seq1 ∈ h1.assigned_seqnums ↔ seq1 ∈ h.assigned_seqnums) ∧
      (seq1 ∈ h1.acked_seqnums ↔ seq1 ∈ h.acked_seqnums) ∧
      ∀ g : GcsHandle, (seq ∈ g.assigned_seqnums ↔ seq ∈ h.assigned_seqnums) →
        (seq ∈ g.acked_seqnums ↔ seq ∈ h.acked_seqnums) →
        ∃ g1, deliver g e = .ok (g1, fired) := by
  have hne1 : seq1 ≠ seq := fun hx => hne hx.symm
  rcases deliver_of_seq h e seq hs with ⟨reply, idx, he, _, hd⟩ | ⟨reply, he, hr, hd⟩
  · by_cases hin : seq ∈ h.acked_seqnums
    · rw [if_pos hin] at hd
      refine ⟨_, _, hd, Iff.rfl, ?_, ?_⟩
      · simp only [Finset.mem_erase, ne_eq, hne1, not_false_eq_true, true_and]
      · intro g _ hgK
        rcases deliver_of_seq g e seq hs with ⟨reply2, idx2, he2, _, hd2⟩ | ⟨reply2, he2, _, _⟩
        · rw [he] at he2
          cases he2
          rw [if_pos (hgK.mpr hin)] at hd2
          exact ⟨_, hd2⟩
        · rw [he] at he2
          cases he2
    · rw [if_neg hin] at hd
      refine ⟨_, _, hd, ?_, Iff.rfl, ?_⟩
      · simp only [Finset.mem_insert, hne1, false_or]
      · intro g _ hgK
        rcases deliver_of_seq g e seq hs with ⟨reply2, idx2, he2, _, hd2⟩ | ⟨reply2, he2, _, _⟩
        · rw [if_neg (fun hx => hin (hgK.mp hx))] at hd2
          exact ⟨_, hd2⟩
        · rw [he] at he2
          cases he2
  · by_cases hin : seq ∈ h.assigned_seqnums
    · simp only [hin, not_true_eq_false, if_false] at hd
      refine ⟨_, _, hd, ?_, Iff.rfl, ?_⟩
      · simp only [Finset.mem_erase, ne_eq, hne1, not_false_eq_true, true_and]
      · intro g hgA _
        rcases deliver_of_seq g e seq hs with ⟨reply2, idx2, he2, _, _⟩ | ⟨reply2, he2, _, hd2⟩
        · rw [he] at he2
          cases he2
        · simp only [hgA.mpr hin, not_true_eq_false, if_false] at hd2
          exact ⟨_, hd2⟩
    · rw [if_pos hin] at hd
      refine ⟨_, _, hd, Iff.rfl, ?_, ?_⟩
      · simp only [Finset.mem_insert, hne1, false_or]
      · intro g hgA _
        rcases deliver_of_seq g e seq hs with ⟨reply2, idx2, he2, _, _⟩ | ⟨reply2, he2, _, hd2⟩
        · rw [he] at he2
          cases he2
        · rw [if_pos (fun hx => hin (hgA.mp hx))] at hd2
          exact ⟨_, hd2⟩

/-- C15, at the ack frame for 42 on a handle that waits on 42 and 7 and buffers 9. -/
theorem C15_events_local_to_seq_witness :
    Event.seq? (.ack_frame (messageFrame "c" "42")) = some 42 ∧ (42 : Int) ≠ 7 ∧
      ∃ h1 fired, deliver ⟨{42, 7}, {9}⟩ (.ack_frame (messageFrame "c" "42")) = .ok (h1, fired) ∧
        ((7 : Int) ∈ h1.assigned_seqnums ↔ (7 : Int) ∈ (⟨{42, 7}, {9}⟩ : GcsHandle).assigned_seqnums) ∧
        ((7 : Int) ∈ h1.acked_seqnums ↔ (7 : Int) ∈ (⟨{42, 7}, {9}⟩ : GcsHandle).acked_seqnums) ∧
        ∀ g : GcsHandle,
          ((42 : Int) ∈ g.assigned_seqnums ↔
            (42 : Int) ∈ (⟨{42, 7}, {9}⟩ : GcsHandle).assigned_seqnums) →
          ((42 : Int) ∈ g.acked_seqnums ↔
            (42 : Int) ∈ (⟨{42, 7}, {9}⟩ : GcsHandle).acked_seqnums) →
          ∃ g1, deliver g (.ack_frame (messageFrame "c" "42")) = .ok (g1, fired) :=
  ⟨by decide, by decide,
    C15_events_local_to_seq ⟨{42, 7}, {9}⟩ (.ack_frame (messageFrame "c" "42")) 42 7
      (by decide) (by decide)⟩

theorem deliver_fired (h h1 : GcsHandle) (e : Event) (fired : List Privdata)
    (hd : deliver h e = .ok (h1, fired)) (p : Privdata) (hp : p ∈ fired) :
    p = NULL ∨ ∃ reply, e = .write_reply reply p := by
  cases e with
  | write_reply reply idx =>
    rw [deliver_write_reply] at hd
    by_cases hk : reply.integer ∈ h.acked_seqnums
    · simp only [hk, if_true, Except.ok.injEq, Prod.mk.injEq] at hd
      rw [← hd.2, List.mem_singleton] at hp
      exact Or.inr ⟨reply, by rw [hp]; rfl⟩
    · simp only [hk, if_false, Except.ok.injEq, Prod.mk.injEq] at hd
      rw [← hd.2] at hp
      cases hp
  | ack_frame reply =>
    rcases AckedSeqnumCallback_cases h reply AttachToEventLoop.privdata with
      ⟨f, hf⟩ | hsub | ⟨n, hs⟩
    · simp only [deliver, hf] at hd
      cases hd
    · simp only [deliver, hsub, Except.ok.injEq, Prod.mk.injEq] at hd
      rw [← hd.2] at hp
      cases hp
    · rw [deliver_ack_frame h reply n hs] at hd
      by_cases ha : n ∈ h.assigned_seqnums
      · simp only [ha, not_true_eq_false, if_false, Except.ok.injEq, Prod.mk.injEq] at hd
        rw [← hd.2, List.mem_singleton] at hp
        exact Or.inl hp
      · simp only [ha, not_false_eq_true, if_true, Except.ok.injEq, Prod.mk.injEq] at hd
        rw [← hd.2] at hp
        cases hp

theorem run_fired (evs : List Event) :
    ∀ (h h1 : GcsHandle) (fired : List Privdata), run h evs = .ok (h1, fired) →
      ∀ p ∈ fired, p = NULL ∨ ∃ reply, Event.write_reply reply p ∈ evs := by
  induction evs with
  | nil =>
    intro h h1 fired hr p hp
    simp only [run, Except.ok.injEq, Prod.mk.injEq] at hr
    rw [← hr.2] at hp
    cases hp
  | cons e es ih =>
    intro h h1 fired hr p hp
    cases hd : deliver h e with
    | error f => simp only [run, hd] at hr; cases hr
    | ok q =>
      obtain ⟨h2, fired2⟩ := q
      rw [run_cons_ok h h2 e es fired2 hd] at hr
      cases hr2 : run h2 es with
      | error f => simp only [hr2] at hr; cases hr
      | ok q3 =>
        obtain ⟨h3, fired3⟩ := q3
        simp only [hr2, Except.ok.injEq, Prod.mk.injEq] at hr
        rw [← hr.2, List.mem_append] at hp
        rcases hp with hp | hp
        · rcases deliver_fired h h2 e fired2 hd p hp with hn | ⟨reply, he⟩
          · exact Or.inl hn
          · exact Or.inr ⟨reply, by rw [he]; exact List.mem_cons_self _ _⟩
        · rcases ih h2 h3 fired3 hr2 p hp with hn | ⟨reply, he⟩
          · exact Or.inl hn
          · exact Or.inr ⟨reply, List.mem_cons_of_mem _ he⟩

/-- C12 (fails on the code): the handle has no timeout path. The only things
that launch a callback are the two hiredis callbacks, so for a write issued
by `Add` with a non-null `done_callback_idx`, as long as no reply to that
write is among the delivered events, its callback is not among the launched
ones, whatever else is delivered and from whatever state: it is never
resolved, with a failure or otherwise. -/
theorem C12_no_callback_without_reply (h h1 : GcsHandle) (evs : List Event)
    (fired : List Privdata) (done_callback_idx : Int) (hnn : Add done_callback_idx ≠ NULL)
    (hpending : ∀ reply, Event.write_reply reply done_callback_idx ∉ evs)
    (hrun : run h evs = .ok (h1, fired)) :
    Add done_callback_idx ∉ fired := by
  intro hp
  rcases run_fired evs h h1 fired hrun _ hp with hn | ⟨reply, he⟩
  · exact hnn hn
  · exact hpending reply he

/-- C12, for the write of token 1 that gets no reply: with no event at all
nothing is launched, and with the traffic of another write only the
callbacks of that traffic are. -/
theorem C12_no_callback_without_reply_witness :
    run GcsHandle.init [] = .ok (GcsHandle.init, []) ∧
      run GcsHandle.init
          [.ack_frame (messageFrame "c" "8"), .write_reply (integerReply 8) 2,
           .write_reply (integerReply 9) 3, .ack_frame (messageFrame "c" "9")]
        = .ok (GcsHandle.init, [2, NULL]) ∧
      Add 1 ∉ ([2, NULL] : List Privdata) :=
  ⟨by decide, by decide,
    C12_no_callback_without_reply GcsHandle.init GcsHandle.init
      [.ack_frame (messageFrame "c" "8"), .write_reply (integerReply 8) 2,
       .write_reply (integerReply 9) 3, .ack_frame (messageFrame "c" "9")]
      [2, NULL] 1 (by decide)
      (by
        intro reply hmem
        simp only [List.mem_cons, List.mem_singleton, List.not_mem_nil, or_false] at hmem
        rcases hmem with hx | hx | hx | hx
        · cases hx
        · injection hx with _ h2
          exact absurd h2 (by decide)
        · injection hx with _ h2
          exact absurd h2 (by decide)
        · cases hx)
      (by decide)⟩

end GcsIface
